import Mathlib

/-!
# Verification of the two-layer drawing engine

Shallow embedding of the interactive drawing engine of the `draw` repository:
the newer Canvas component (pointer state machine, two-layer compositing,
text overlay, paste scaling, arrow geometry), the older Canvas component
(`src/components/paint/canvas.tsx`), and the page-level clear handler.

Canvas 2D painting is modelled as an operation log per layer: each layer of
the compositor records the sequence of painted units exactly as the component
issues them, and a `Rasterizer` parameter interprets each painted unit as a
raster (the browser's rasterization is outside the repository, so it stays
abstract).  Pointer coordinates are real numbers, mirroring JS numbers.
-/

namespace Draw

/-- CSS color strings, as passed to `strokeStyle` / `fillStyle`. -/
abbrev Color := String

/-- The `drawMode` prop of the newer Canvas component. -/
inductive Tool
  | pen
  | rectangle
  | circle
  | line
  | arrow
  | text
  | move
deriving DecidableEq, Repr

/-- The configuration props consumed by the Canvas component
(`width`, `height`, `color`, `lineWidth`, `drawMode`, `roughness`,
`enableRough`). -/
structure Config where
  width : ℝ
  height : ℝ
  color : Color
  lineWidth : ℝ
  drawMode : Tool
  roughness : ℝ
  enableRough : Bool

/-- Painted units that the component issues against the preview canvas.
Each constructor records the exact parameters the source passes to the 2D
context or to the rough generator. -/
inductive ShapeOp
  | rectStroke (x y w h : ℝ) (c : Color) (lw : ℝ)
  | circleStroke (cx cy r : ℝ) (c : Color) (lw : ℝ)
  | lineStroke (x1 y1 x2 y2 : ℝ) (c : Color) (lw : ℝ)
  /-- `drawArrow` head: path tip → back point 1 → back point 2 → close, filled. -/
  | arrowHeadFill (tipx tipy b1x b1y b2x b2y : ℝ) (c : Color)
  | roughRect (x y w h : ℝ) (c : Color) (lw rgh : ℝ)
  | roughCircle (cx cy diam : ℝ) (c : Color) (lw rgh : ℝ)
  | roughLine (x1 y1 x2 y2 : ℝ) (c : Color) (lw rgh : ℝ)
  /-- Rough arrowhead: `linearPath [[0,0],[-hl,-hl/2],[-hl,hl/2],[0,0]]` filled,
  drawn under `translate(tipx,tipy)` then `rotate(angle)`. -/
  | roughArrowHead (tipx tipy angle hl : ℝ) (c : Color) (lw rgh : ℝ)

/-- Operations recorded on the persistent (main) canvas context. -/
inductive MainOp
  /-- `ctx.beginPath(); ctx.moveTo(x, y)` at pen pointer-down. -/
  | penBegin (x y : ℝ)
  /-- `ctx.lineTo(x, y); ctx.stroke()` at a pen pointer-move. -/
  | penLine (x y : ℝ) (c : Color) (lw : ℝ)
  /-- `ctx.closePath()` at pen pointer-up. -/
  | penClose
  /-- `ctx.fillText` with the font, baseline and fill the source sets. -/
  | textFill (s : String) (x y fontPx : ℝ) (family baseline : String) (c : Color)
  /-- `ctx.drawImage(previewCanvas, dx, dy)`: blit of the preview layer. -/
  | blit (dx dy : ℝ) (ops : List ShapeOp)
  /-- `ctx.drawImage(img, x, y, w, h)` for a pasted image. -/
  | pasteImage (x y w h : ℝ)

/-- The component state of the newer Canvas component: the drawing-session
flags, the text-overlay state, availability of the two 2D contexts, and the
operation logs of the two layers. -/
structure CanvasState where
  isDrawing : Bool
  startPos : Option (ℝ × ℝ)
  textInputValue : String
  textInputPosition : Option (ℝ × ℝ)
  ctx : Bool
  previewCtx : Bool
  persistent : List MainOp
  preview : List ShapeOp

/-- `Math.atan2`, as used for the arrow angle. -/
noncomputable def atan2 (y x : ℝ) : ℝ :=
  if 0 < x then Real.arctan (y / x)
  else if x < 0 then
    (if 0 ≤ y then Real.arctan (y / x) + Real.pi else Real.arctan (y / x) - Real.pi)
  else if 0 < y then Real.pi / 2
  else if y < 0 then -(Real.pi / 2)
  else 0

/-- `drawArrow(ctx, fromX, fromY, toX, toY)`: strokes the segment, then fills
the triangular head whose back points sit `headLength` away from the tip at
angles `angle ∓ π/6`, with `headLength = min(lineWidth * 5, 20)`. -/
noncomputable def drawArrow (cfg : Config) (a c : ℝ × ℝ) : List ShapeOp :=
  let headLength : ℝ := min (cfg.lineWidth * 5) 20
  let angle : ℝ := atan2 (c.2 - a.2) (c.1 - a.1)
  [ShapeOp.lineStroke a.1 a.2 c.1 c.2 cfg.color cfg.lineWidth,
   ShapeOp.arrowHeadFill c.1 c.2
     (c.1 - headLength * Real.cos (angle - Real.pi / 6))
     (c.2 - headLength * Real.sin (angle - Real.pi / 6))
     (c.1 - headLength * Real.cos (angle + Real.pi / 6))
     (c.2 - headLength * Real.sin (angle + Real.pi / 6))
     cfg.color]

/-- The preview content produced by one `draw` pointer-move for the non-pen
tools: the preview canvas is cleared and exactly the ops of the active branch
are painted.  Mirrors the body of `draw` in the newer component.  Note that in
the rough arrow branch the generated rough line is never drawn (the final
`if (roughShape && drawMode !== "arrow")` guard excludes it), so only the
rough arrowhead is painted. -/
noncomputable def shapePreviewOps (cfg : Config) (a p : ℝ × ℝ) : List ShapeOp :=
  if cfg.enableRough then
    match cfg.drawMode with
    | Tool.rectangle =>
        [ShapeOp.roughRect a.1 a.2 (p.1 - a.1) (p.2 - a.2) cfg.color cfg.lineWidth cfg.roughness]
    | Tool.circle =>
        [ShapeOp.roughCircle a.1 a.2
          (2 * Real.sqrt ((p.1 - a.1) ^ 2 + (p.2 - a.2) ^ 2)) cfg.color cfg.lineWidth cfg.roughness]
    | Tool.line =>
        [ShapeOp.roughLine a.1 a.2 p.1 p.2 cfg.color cfg.lineWidth cfg.roughness]
    | Tool.arrow =>
        [ShapeOp.roughArrowHead p.1 p.2 (atan2 (p.2 - a.2) (p.1 - a.1))
          (min (cfg.lineWidth * 5) 20) cfg.color cfg.lineWidth cfg.roughness]
    | _ => []
  else
    match cfg.drawMode with
    | Tool.rectangle =>
        [ShapeOp.rectStroke a.1 a.2 (p.1 - a.1) (p.2 - a.2) cfg.color cfg.lineWidth]
    | Tool.circle =>
        [ShapeOp.circleStroke a.1 a.2
          (Real.sqrt ((p.1 - a.1) ^ 2 + (p.2 - a.2) ^ 2)) cfg.color cfg.lineWidth]
    | Tool.line =>
        [ShapeOp.lineStroke a.1 a.2 p.1 p.2 cfg.color cfg.lineWidth]
    | Tool.arrow => drawArrow cfg a p
    | _ => []

/-- JS `String.prototype.trim()`: strips leading and trailing whitespace. -/
def jsTrim (s : String) : String :=
  ⟨((s.data.dropWhile Char.isWhitespace).reverse.dropWhile Char.isWhitespace).reverse⟩

/-- `applyTextToCanvas`: commits the text-overlay content.  No-op when the
main context is missing, no region is open, or the trimmed content is empty
(JS falsiness of `textInputValue.trim()`); otherwise paints the literal string
at the anchor with font `max(lineWidth * 3, 14)px sans-serif`, baseline
`top`, fill = stroke color, and resets the overlay state. -/
def applyTextToCanvas (cfg : Config) (s : CanvasState) : CanvasState :=
  match s.textInputPosition with
  | none => s
  | some q =>
    if s.ctx = false then s
    else if jsTrim s.textInputValue = "" then s
    else
      { s with
        persistent := s.persistent ++
          [MainOp.textFill s.textInputValue q.1 q.2
            (max (cfg.lineWidth * 3) 14) "sans-serif" "top" cfg.color],
        textInputValue := "",
        textInputPosition := none }

/-- `startDrawing`: pointer-down.  No-op without both contexts.  For the text
tool: commit any pending overlay first, then open a new region at the point.
Otherwise record the anchor; pen begins a path on the main canvas, shape
tools clear the preview canvas; the session becomes active. -/
def startDrawing (cfg : Config) (s : CanvasState) (p : ℝ × ℝ) : CanvasState :=
  if s.ctx && s.previewCtx then
    if cfg.drawMode = Tool.text then
      let s1 := if s.textInputPosition.isSome then applyTextToCanvas cfg s else s
      { s1 with textInputPosition := some p }
    else
      let s1 := { s with startPos := some p }
      let s2 :=
        if cfg.drawMode = Tool.pen then
          { s1 with persistent := s1.persistent ++ [MainOp.penBegin p.1 p.2] }
        else
          { s1 with preview := [] }
      { s2 with isDrawing := true }
  else s

/-- `draw`: pointer-move.  No-op unless a session is active, both contexts
exist and an anchor is recorded.  Pen strokes directly onto the persistent
canvas; every other tool redraws the preview canvas from scratch. -/
noncomputable def draw (cfg : Config) (s : CanvasState) (p : ℝ × ℝ) : CanvasState :=
  match s.startPos with
  | none => s
  | some a =>
    if s.isDrawing && s.ctx && s.previewCtx then
      if cfg.drawMode = Tool.pen then
        { s with persistent := s.persistent ++ [MainOp.penLine p.1 p.2 cfg.color cfg.lineWidth] }
      else
        { s with preview := shapePreviewOps cfg a p }
    else s

/-- `stopDrawing`: pointer-up / leave / cancel.  No-op unless a session is
active with both contexts and an anchor.  Pen closes its path; every other
tool blits the preview canvas onto the persistent canvas at `(0, 0)` and
clears the preview canvas.  The session ends. -/
def stopDrawing (cfg : Config) (s : CanvasState) : CanvasState :=
  match s.startPos with
  | none => s
  | some _ =>
    if s.isDrawing && s.ctx && s.previewCtx then
      let s1 :=
        if cfg.drawMode = Tool.pen then
          { s with persistent := s.persistent ++ [MainOp.penClose] }
        else
          { s with persistent := s.persistent ++ [MainOp.blit 0 0 s.preview], preview := [] }
      { s1 with isDrawing := false, startPos := none }
    else s

/-- Keys handled by the text-overlay `onKeyDown` handler. -/
inductive TextKey
  | enter (shift : Bool)
  | escape
  | other
deriving DecidableEq, Repr

/-- `handleTextInputKeyDown`: Enter without shift commits; Escape discards
value and region; everything else (including Shift+Enter) falls through to
the textarea default. -/
def handleTextInputKeyDown (cfg : Config) (s : CanvasState) : TextKey → CanvasState
  | TextKey.enter false => applyTextToCanvas cfg s
  | TextKey.enter true => s
  | TextKey.escape => { s with textInputValue := "", textInputPosition := none }
  | TextKey.other => s

/-- The textarea `onBlur` handler: commit, same as Enter. -/
def handleTextBlur (cfg : Config) (s : CanvasState) : CanvasState :=
  applyTextToCanvas cfg s

/-- The paste placement and scaling computed by `handlePaste` on image decode
completion, over exact rationals: position clamped-centered from the
intrinsic size, then the width-constrained scale, then the height-constrained
scale if the (possibly already scaled) height still exceeds `height - 20`.
Returns `((x, y), (drawWidth, drawHeight))`. -/
def pasteGeometry (width height imgWidth imgHeight : ℚ) : (ℚ × ℚ) × (ℚ × ℚ) :=
  let x := max 0 ((width - imgWidth) / 2)
  let y := max 0 ((height - imgHeight) / 2)
  let s1 : ℚ × ℚ :=
    if imgWidth > width - 20 then
      (imgWidth * ((width - 20) / imgWidth), imgHeight * ((width - 20) / imgWidth))
    else (imgWidth, imgHeight)
  let s2 : ℚ × ℚ :=
    if s1.2 > height - 20 then
      (s1.1 * ((height - 20) / s1.2), s1.2 * ((height - 20) / s1.2))
    else s1
  ((x, y), s2)

/-- `handleClear` from the page component: requires the canvas node, then the
`confirm` dialog; only a confirmed clear with an available 2D context wipes
the persistent layer (`clearRect` over the whole canvas). -/
def handleClear (canvasAvail confirmed ctxAvail : Bool) (persistent : List MainOp) :
    List MainOp :=
  if canvasAvail then
    if confirmed then (if ctxAvail then [] else persistent) else persistent
  else persistent

/-! ## The older Canvas component (`src/components/paint/canvas.tsx`) -/

/-- Preview content produced by one `draw` pointer-move of the older Canvas
component (tools `pen | rectangle | circle | line`, no rough rendering):
clear, begin path, branch-specific path commands, single stroke. -/
noncomputable def oldShapePreviewOps (cfg : Config) (a p : ℝ × ℝ) : List ShapeOp :=
  match cfg.drawMode with
  | Tool.rectangle =>
      [ShapeOp.rectStroke a.1 a.2 (p.1 - a.1) (p.2 - a.2) cfg.color cfg.lineWidth]
  | Tool.circle =>
      [ShapeOp.circleStroke a.1 a.2
        (Real.sqrt ((p.1 - a.1) ^ 2 + (p.2 - a.2) ^ 2)) cfg.color cfg.lineWidth]
  | Tool.line =>
      [ShapeOp.lineStroke a.1 a.2 p.1 p.2 cfg.color cfg.lineWidth]
  | _ => []

/-- `draw` of the older Canvas component: same guards and pen branch as the
newer one; shape tools redraw the preview from scratch with precise paths. -/
noncomputable def oldDraw (cfg : Config) (s : CanvasState) (p : ℝ × ℝ) : CanvasState :=
  match s.startPos with
  | none => s
  | some a =>
    if s.isDrawing && s.ctx && s.previewCtx then
      if cfg.drawMode = Tool.pen then
        { s with persistent := s.persistent ++ [MainOp.penLine p.1 p.2 cfg.color cfg.lineWidth] }
      else
        { s with preview := oldShapePreviewOps cfg a p }
    else s

/-! ## Raster semantics -/

/-- An idealized raster: a partial assignment of colors to points; `none` is
transparent.  A fresh canvas is fully transparent. -/
def Raster : Type := ℝ × ℝ → Option Color

/-- The blank (fully transparent) raster. -/
def blank : Raster := fun _ => none

/-- Source-over compositing of binary-alpha rasters: pixels of `top` that are
non-transparent overwrite `bot`. -/
def overlay (top bot : Raster) : Raster := fun p =>
  match top p with
  | some c => some c
  | none => bot p

/-- Translation of a raster by `(dx, dy)` (for `drawImage` offsets). -/
def translateR (dx dy : ℝ) (r : Raster) : Raster := fun p => r (p.1 - dx, p.2 - dy)

/-- Abstract rasterization of the painted primitives: the browser's
rasterizer, kept as a parameter of the semantics. -/
structure Rasterizer where
  shape : ShapeOp → Raster
  strokePath : List (ℝ × ℝ) → Color → ℝ → Raster
  textFill : String → ℝ → ℝ → ℝ → String → String → Color → Raster
  image : ℝ → ℝ → ℝ → ℝ → Raster

/-- Rendering of a preview-layer op log onto a fresh transparent raster:
later ops paint over earlier ones. -/
def renderShapes (R : Rasterizer) (ops : List ShapeOp) : Raster :=
  ops.foldl (fun r op => overlay (R.shape op) r) blank

/-- One step of main-layer rendering; carries the current path of the main
context (pen strokes re-stroke the whole accumulated path, as the 2D API
does). -/
def mainStep (R : Rasterizer) : Raster × List (ℝ × ℝ) → MainOp → Raster × List (ℝ × ℝ)
  | (r, _), MainOp.penBegin x y => (r, [(x, y)])
  | (r, path), MainOp.penLine x y c lw =>
      let path2 := path ++ [(x, y)]
      (overlay (R.strokePath path2 c lw) r, path2)
  | (r, path), MainOp.penClose => (r, path)
  | (r, path), MainOp.textFill str x y fs fam bl c =>
      (overlay (R.textFill str x y fs fam bl c) r, path)
  | (r, path), MainOp.blit dx dy ops =>
      (overlay (translateR dx dy (renderShapes R ops)) r, path)
  | (r, path), MainOp.pasteImage x y w h => (overlay (R.image x y w h) r, path)

/-- Rendering of the persistent-layer op log onto a fresh transparent
raster. -/
def renderMain (R : Rasterizer) (ops : List MainOp) : Raster :=
  (ops.foldl (mainStep R) (blank, [])).1

end Draw

namespace Draw

/-! ## Basic rendering lemmas -/

theorem overlay_blank (r : Raster) : overlay blank r = r := by
  funext p
  rfl

theorem translateR_zero (r : Raster) : translateR 0 0 r = r := by
  funext p
  simp [translateR]

theorem renderShapes_nil (R : Rasterizer) : renderShapes R [] = blank := rfl

theorem renderMain_nil (R : Rasterizer) : renderMain R [] = blank := rfl

theorem renderMain_append_blit (R : Rasterizer) (ops : List MainOp) (ps : List ShapeOp) :
    renderMain R (ops ++ [MainOp.blit 0 0 ps]) =
      overlay (renderShapes R ps) (renderMain R ops) := by
  unfold renderMain
  rw [List.foldl_append]
  simp [mainStep, translateR_zero]

/-! ## Sample configurations and states used by the witnesses -/

def cfgPen : Config := ⟨800, 600, "#000000", 5, Tool.pen, 1, true⟩

def st0 : CanvasState := ⟨false, none, "", none, true, true, [], []⟩

def stNoCtx : CanvasState := { st0 with ctx := false }

/-! ## C7: stray events and unavailable contexts are silent no-ops -/

/-- C7: a pointer-move with no active drawing session leaves the state
unchanged, and pointer-down / pointer-move / pointer-up while either canvas
context is unavailable leave the state (persistent layer, preview layer and
session fields) unchanged. -/
theorem stray_events_noop (cfg : Config) (s t : CanvasState) (p q : ℝ × ℝ)
    (h1 : s.isDrawing = false) (h2 : t.ctx = false ∨ t.previewCtx = false) :
    draw cfg s p = s ∧ startDrawing cfg t q = t ∧ draw cfg t q = t ∧
      stopDrawing cfg t = t := by
  have hg : (t.ctx && t.previewCtx) = false := by
    rcases h2 with h | h <;> simp [h]
  have hg2 : (t.isDrawing && t.ctx && t.previewCtx) = false := by
    rcases h2 with h | h <;> simp [h]
  refine ⟨?_, ?_, ?_, ?_⟩
  · unfold draw
    cases s.startPos with
    | none => rfl
    | some a => simp [h1]
  · unfold startDrawing
    simp [hg]
  · unfold draw
    cases t.startPos with
    | none => rfl
    | some a => simp [hg2, Bool.and_assoc]
  · unfold stopDrawing
    cases t.startPos with
    | none => rfl
    | some a => simp [hg2, Bool.and_assoc]

theorem stray_events_noop_witness :
    draw cfgPen st0 (3, 4) = st0 ∧ startDrawing cfgPen stNoCtx (1, 1) = stNoCtx ∧
      draw cfgPen stNoCtx (1, 1) = stNoCtx ∧ stopDrawing cfgPen stNoCtx = stNoCtx :=
  stray_events_noop cfgPen st0 stNoCtx (3, 4) (1, 1) rfl (Or.inl rfl)

/-! ## C8: clear requires confirmation and resets the persistent raster -/

/-- C8: an executed clear (canvas and context available, user confirmed)
empties the persistent op log, whose rendering is the initial blank
transparent raster, regardless of prior content; a declined confirmation
leaves the persistent layer unchanged. -/
theorem clear_persistent_blank (R : Rasterizer) (a c : Bool) (ops ops2 : List MainOp) :
    handleClear true true true ops = [] ∧
    renderMain R (handleClear true true true ops) = blank ∧
    handleClear a false c ops2 = ops2 := by
  refine ⟨rfl, rfl, ?_⟩
  cases a <;> rfl

end Draw

namespace Draw

/-! ## Gesture lemmas for the shape tools -/

theorem shapeMode_ne (m : Tool)
    (hm : m = Tool.rectangle ∨ m = Tool.circle ∨ m = Tool.line ∨ m = Tool.arrow) :
    m ≠ Tool.pen ∧ m ≠ Tool.text := by
  rcases hm with h | h | h | h <;> subst h <;> exact ⟨by decide, by decide⟩

theorem startDrawing_shape_eq (cfg : Config) (s : CanvasState) (p : ℝ × ℝ)
    (hpen : cfg.drawMode ≠ Tool.pen) (htext : cfg.drawMode ≠ Tool.text)
    (hc : s.ctx = true) (hp : s.previewCtx = true) :
    startDrawing cfg s p = { s with startPos := some p, preview := [], isDrawing := true } := by
  simp [startDrawing, hc, hp, hpen, htext]

theorem draw_shape_eq (cfg : Config) (s : CanvasState) (a p : ℝ × ℝ)
    (hpen : cfg.drawMode ≠ Tool.pen) (hd : s.isDrawing = true) (hc : s.ctx = true)
    (hp : s.previewCtx = true) (hs : s.startPos = some a) :
    draw cfg s p = { s with preview := shapePreviewOps cfg a p } := by
  simp [draw, hs, hd, hc, hp, hpen]

theorem stopDrawing_shape_parts (cfg : Config) (s : CanvasState) (a : ℝ × ℝ)
    (hpen : cfg.drawMode ≠ Tool.pen) (hd : s.isDrawing = true) (hc : s.ctx = true)
    (hp : s.previewCtx = true) (hs : s.startPos = some a) :
    (stopDrawing cfg s).persistent = s.persistent ++ [MainOp.blit 0 0 s.preview] ∧
    (stopDrawing cfg s).preview = [] ∧
    (stopDrawing cfg s).isDrawing = false ∧
    (stopDrawing cfg s).startPos = none := by
  simp [stopDrawing, hs, hd, hc, hp, hpen]

/-- Invariant preserved by any run of pointer-moves with a non-pen tool: the
session flags, anchor and persistent layer are untouched, and the preview is
either untouched or the redraw for the anchor and some visited point. -/
theorem foldl_draw_inv (cfg : Config) (hpen : cfg.drawMode ≠ Tool.pen)
    (ms : List (ℝ × ℝ)) :
    ∀ (s : CanvasState) (a : ℝ × ℝ), s.isDrawing = true → s.ctx = true →
      s.previewCtx = true → s.startPos = some a →
      (ms.foldl (draw cfg) s).isDrawing = true ∧
      (ms.foldl (draw cfg) s).ctx = true ∧
      (ms.foldl (draw cfg) s).previewCtx = true ∧
      (ms.foldl (draw cfg) s).startPos = some a ∧
      (ms.foldl (draw cfg) s).persistent = s.persistent ∧
      ((ms.foldl (draw cfg) s).preview = s.preview ∨
        ∃ q, (ms.foldl (draw cfg) s).preview = shapePreviewOps cfg a q) := by
  induction ms with
  | nil =>
    intro s a hd hc hp hs
    exact ⟨hd, hc, hp, hs, rfl, Or.inl rfl⟩
  | cons m ms ih =>
    intro s a hd hc hp hs
    rw [List.foldl_cons, draw_shape_eq cfg s a m hpen hd hc hp hs]
    obtain ⟨h1, h2, h3, h4, h5, h6⟩ :=
      ih { s with preview := shapePreviewOps cfg a m } a hd hc hp hs
    refine ⟨h1, h2, h3, h4, h5, ?_⟩
    rcases h6 with h | ⟨q, hq⟩
    · exact Or.inr ⟨m, h⟩
    · exact Or.inr ⟨q, hq⟩

/-! ## C1: shape gestures commit exactly once, on pointer-up -/

/-- C1: with a shape tool (rectangle, circle, line or arrow) active, no
pointer-move after the pointer-down touches the persistent layer; at
pointer-up the preview holds exactly the single redraw for the last move
point, the whole preview is blitted onto the persistent layer at offset
`(0, 0)` (non-transparent preview pixels overwriting persistent pixels) and
the preview is cleared. -/
theorem shape_gesture_commit (cfg : Config) (s : CanvasState) (p0 q : ℝ × ℝ)
    (ms0 : List (ℝ × ℝ))
    (hm : cfg.drawMode = Tool.rectangle ∨ cfg.drawMode = Tool.circle ∨
      cfg.drawMode = Tool.line ∨ cfg.drawMode = Tool.arrow)
    (hc : s.ctx = true) (hp : s.previewCtx = true) :
    (∀ ms : List (ℝ × ℝ),
      (ms.foldl (draw cfg) (startDrawing cfg s p0)).persistent = s.persistent) ∧
    ((ms0 ++ [q]).foldl (draw cfg) (startDrawing cfg s p0)).preview
      = shapePreviewOps cfg p0 q ∧
    (stopDrawing cfg ((ms0 ++ [q]).foldl (draw cfg) (startDrawing cfg s p0))).persistent
      = s.persistent ++ [MainOp.blit 0 0 (shapePreviewOps cfg p0 q)] ∧
    (stopDrawing cfg ((ms0 ++ [q]).foldl (draw cfg) (startDrawing cfg s p0))).preview = [] ∧
    (∀ R : Rasterizer,
      renderMain R
          (stopDrawing cfg ((ms0 ++ [q]).foldl (draw cfg) (startDrawing cfg s p0))).persistent
        = overlay (renderShapes R (shapePreviewOps cfg p0 q)) (renderMain R s.persistent)) := by
  obtain ⟨hpen, htext⟩ := shapeMode_ne cfg.drawMode hm
  have hstart := startDrawing_shape_eq cfg s p0 hpen htext hc hp
  have hd0 : (startDrawing cfg s p0).isDrawing = true := by rw [hstart]
  have hc0 : (startDrawing cfg s p0).ctx = true := by rw [hstart]; exact hc
  have hp0 : (startDrawing cfg s p0).previewCtx = true := by rw [hstart]; exact hp
  have hs0 : (startDrawing cfg s p0).startPos = some p0 := by rw [hstart]
  have hper0 : (startDrawing cfg s p0).persistent = s.persistent := by rw [hstart]
  have hinv := fun ms =>
    foldl_draw_inv cfg hpen ms (startDrawing cfg s p0) p0 hd0 hc0 hp0 hs0
  obtain ⟨hd1, hc1, hp1, hs1, hper1, -⟩ := hinv ms0
  have hper1s : (ms0.foldl (draw cfg) (startDrawing cfg s p0)).persistent
      = s.persistent := hper1.trans hper0
  have hfold : ((ms0 ++ [q]).foldl (draw cfg) (startDrawing cfg s p0))
      = draw cfg (ms0.foldl (draw cfg) (startDrawing cfg s p0)) q := by
    rw [List.foldl_append]
    rfl
  have hdraw := draw_shape_eq cfg (ms0.foldl (draw cfg) (startDrawing cfg s p0)) p0 q
    hpen hd1 hc1 hp1 hs1
  have huprev : ((ms0 ++ [q]).foldl (draw cfg) (startDrawing cfg s p0)).preview
      = shapePreviewOps cfg p0 q := by rw [hfold, hdraw]
  have huper : ((ms0 ++ [q]).foldl (draw cfg) (startDrawing cfg s p0)).persistent
      = s.persistent := by rw [hfold, hdraw]; exact hper1s
  have hud : ((ms0 ++ [q]).foldl (draw cfg) (startDrawing cfg s p0)).isDrawing = true := by
    rw [hfold, hdraw]; exact hd1
  have huc : ((ms0 ++ [q]).foldl (draw cfg) (startDrawing cfg s p0)).ctx = true := by
    rw [hfold, hdraw]; exact hc1
  have hup : ((ms0 ++ [q]).foldl (draw cfg) (startDrawing cfg s p0)).previewCtx = true := by
    rw [hfold, hdraw]; exact hp1
  have hus : ((ms0 ++ [q]).foldl (draw cfg) (startDrawing cfg s p0)).startPos = some p0 := by
    rw [hfold, hdraw]; exact hs1
  obtain ⟨hsp1, hsp2, -, -⟩ := stopDrawing_shape_parts cfg _ p0 hpen hud huc hup hus
  refine ⟨?_, huprev, ?_, hsp2, ?_⟩
  · intro ms
    exact ((hinv ms).2.2.2.2.1).trans hper0
  · rw [hsp1, huprev, huper]
  · intro R
    rw [hsp1, huprev, huper, renderMain_append_blit]

def cfgRect : Config := ⟨800, 600, "#000000", 5, Tool.rectangle, 1, false⟩

theorem shape_gesture_commit_witness :
    (∀ ms : List (ℝ × ℝ),
      (ms.foldl (draw cfgRect) (startDrawing cfgRect st0 (10, 10))).persistent
        = st0.persistent) ∧
    (([((30 : ℝ), (30 : ℝ))] ++ [((50 : ℝ), (50 : ℝ))]).foldl (draw cfgRect)
        (startDrawing cfgRect st0 (10, 10))).preview
      = shapePreviewOps cfgRect (10, 10) (50, 50) ∧
    (stopDrawing cfgRect (([((30 : ℝ), (30 : ℝ))] ++ [((50 : ℝ), (50 : ℝ))]).foldl
        (draw cfgRect) (startDrawing cfgRect st0 (10, 10)))).persistent
      = st0.persistent ++ [MainOp.blit 0 0 (shapePreviewOps cfgRect (10, 10) (50, 50))] ∧
    (stopDrawing cfgRect (([((30 : ℝ), (30 : ℝ))] ++ [((50 : ℝ), (50 : ℝ))]).foldl
        (draw cfgRect) (startDrawing cfgRect st0 (10, 10)))).preview = [] ∧
    (∀ R : Rasterizer,
      renderMain R (stopDrawing cfgRect (([((30 : ℝ), (30 : ℝ))] ++
            [((50 : ℝ), (50 : ℝ))]).foldl (draw cfgRect)
            (startDrawing cfgRect st0 (10, 10)))).persistent
        = overlay (renderShapes R (shapePreviewOps cfgRect (10, 10) (50, 50)))
            (renderMain R st0.persistent)) :=
  shape_gesture_commit cfgRect st0 (10, 10) (50, 50) [(30, 30)] (Or.inl rfl) rfl rfl

/-! ## C9: a Move-tool gesture leaves the persistent raster unchanged -/

theorem shapePreviewOps_move (cfg : Config) (hm : cfg.drawMode = Tool.move)
    (a p : ℝ × ℝ) : shapePreviewOps cfg a p = [] := by
  cases h : cfg.enableRough <;> simp [shapePreviewOps, hm, h]

/-- C9: a full gesture with the Move tool renders nothing into the preview
(no shape branch matches), commits a fully transparent preview bitmap at
pointer-up, and leaves the rendered persistent raster exactly as it was
before the pointer-down. -/
theorem move_gesture_noop (cfg : Config) (s : CanvasState) (p0 : ℝ × ℝ)
    (ms : List (ℝ × ℝ)) (hm : cfg.drawMode = Tool.move)
    (hc : s.ctx = true) (hp : s.previewCtx = true) :
    (ms.foldl (draw cfg) (startDrawing cfg s p0)).preview = [] ∧
    (ms.foldl (draw cfg) (startDrawing cfg s p0)).persistent = s.persistent ∧
    (stopDrawing cfg (ms.foldl (draw cfg) (startDrawing cfg s p0))).persistent
      = s.persistent ++ [MainOp.blit 0 0 []] ∧
    (stopDrawing cfg (ms.foldl (draw cfg) (startDrawing cfg s p0))).preview = [] ∧
    (∀ R : Rasterizer,
      renderMain R (stopDrawing cfg (ms.foldl (draw cfg) (startDrawing cfg s p0))).persistent
        = renderMain R s.persistent) := by
  have hpen : cfg.drawMode ≠ Tool.pen := by rw [hm]; decide
  have htext : cfg.drawMode ≠ Tool.text := by rw [hm]; decide
  have hstart := startDrawing_shape_eq cfg s p0 hpen htext hc hp
  have hd0 : (startDrawing cfg s p0).isDrawing = true := by rw [hstart]
  have hc0 : (startDrawing cfg s p0).ctx = true := by rw [hstart]; exact hc
  have hp0 : (startDrawing cfg s p0).previewCtx = true := by rw [hstart]; exact hp
  have hs0 : (startDrawing cfg s p0).startPos = some p0 := by rw [hstart]
  have hper0 : (startDrawing cfg s p0).persistent = s.persistent := by rw [hstart]
  have hprev0 : (startDrawing cfg s p0).preview = [] := by rw [hstart]
  obtain ⟨hd1, hc1, hp1, hs1, hper1, hprev1⟩ :=
    foldl_draw_inv cfg hpen ms (startDrawing cfg s p0) p0 hd0 hc0 hp0 hs0
  have hprev : (ms.foldl (draw cfg) (startDrawing cfg s p0)).preview = [] := by
    rcases hprev1 with h | ⟨r, hr⟩
    · rw [h, hprev0]
    · rw [hr, shapePreviewOps_move cfg hm p0 r]
  have hper : (ms.foldl (draw cfg) (startDrawing cfg s p0)).persistent = s.persistent :=
    hper1.trans hper0
  obtain ⟨hsp1, hsp2, -, -⟩ := stopDrawing_shape_parts cfg _ p0 hpen hd1 hc1 hp1 hs1
  refine ⟨hprev, hper, ?_, hsp2, ?_⟩
  · rw [hsp1, hprev, hper]
  · intro R
    rw [hsp1, hprev, hper, renderMain_append_blit, renderShapes_nil, overlay_blank]

def cfgMove : Config := ⟨800, 600, "#000000", 5, Tool.move, 1, true⟩

theorem move_gesture_noop_witness :
    (([((20 : ℝ), (20 : ℝ))]).foldl (draw cfgMove)
        (startDrawing cfgMove st0 (10, 10))).preview = [] ∧
    (([((20 : ℝ), (20 : ℝ))]).foldl (draw cfgMove)
        (startDrawing cfgMove st0 (10, 10))).persistent = st0.persistent ∧
    (stopDrawing cfgMove (([((20 : ℝ), (20 : ℝ))]).foldl (draw cfgMove)
        (startDrawing cfgMove st0 (10, 10)))).persistent
      = st0.persistent ++ [MainOp.blit 0 0 []] ∧
    (stopDrawing cfgMove (([((20 : ℝ), (20 : ℝ))]).foldl (draw cfgMove)
        (startDrawing cfgMove st0 (10, 10)))).preview = [] ∧
    (∀ R : Rasterizer,
      renderMain R (stopDrawing cfgMove (([((20 : ℝ), (20 : ℝ))]).foldl (draw cfgMove)
          (startDrawing cfgMove st0 (10, 10)))).persistent
        = renderMain R st0.persistent) :=
  move_gesture_noop cfgMove st0 (10, 10) [(20, 20)] rfl rfl rfl

end Draw

namespace Draw

/-! ## Text-overlay lemmas -/

theorem applyText_commit (cfg : Config) (s : CanvasState) (q : ℝ × ℝ)
    (hpos : s.textInputPosition = some q) (hc : s.ctx = true)
    (hv : jsTrim s.textInputValue ≠ "") :
    applyTextToCanvas cfg s =
      { s with
        persistent := s.persistent ++
          [MainOp.textFill s.textInputValue q.1 q.2
            (max (cfg.lineWidth * 3) 14) "sans-serif" "top" cfg.color],
        textInputValue := "", textInputPosition := none } := by
  simp [applyTextToCanvas, hpos, hc, hv]

theorem applyText_noop (cfg : Config) (s : CanvasState)
    (hv : jsTrim s.textInputValue = "") : applyTextToCanvas cfg s = s := by
  unfold applyTextToCanvas
  cases hp : s.textInputPosition with
  | none => rfl
  | some q => simp [hv]

/-! ## C3: confirming a text region -/

/-- C3 (amended): confirming an open text region (Enter without shift, or
focus loss) with non-empty trimmed content paints the literal string at the
anchor with font `max(3 * strokeWidth, 14)px sans-serif`, top baseline,
filled with the stroke color, and closes the region; with whitespace-only
content nothing is committed and the state — including the still-open
region — is entirely unchanged. -/
theorem text_confirm_commit (cfg : Config) (s t : CanvasState) (qs : ℝ × ℝ)
    (hpos : s.textInputPosition = some qs) (hc : s.ctx = true)
    (hv : jsTrim s.textInputValue ≠ "") (htv : jsTrim t.textInputValue = "") :
    handleTextInputKeyDown cfg s (TextKey.enter false) =
      { s with
        persistent := s.persistent ++
          [MainOp.textFill s.textInputValue qs.1 qs.2
            (max (cfg.lineWidth * 3) 14) "sans-serif" "top" cfg.color],
        textInputValue := "", textInputPosition := none } ∧
    handleTextBlur cfg s =
      { s with
        persistent := s.persistent ++
          [MainOp.textFill s.textInputValue qs.1 qs.2
            (max (cfg.lineWidth * 3) 14) "sans-serif" "top" cfg.color],
        textInputValue := "", textInputPosition := none } ∧
    handleTextInputKeyDown cfg t (TextKey.enter false) = t ∧
    handleTextBlur cfg t = t := by
  have h1 := applyText_commit cfg s qs hpos hc hv
  have h2 := applyText_noop cfg t htv
  exact ⟨h1, h1, h2, h2⟩

def cfgText : Config := ⟨800, 600, "#ff0000", 5, Tool.text, 1, true⟩

def stWs : CanvasState := ⟨false, none, " ", some (1, 2), true, true, [], []⟩

def stTxt : CanvasState := ⟨false, none, "Hi", some (1, 2), true, true, [], []⟩

theorem text_confirm_commit_witness :
    handleTextInputKeyDown cfgText stTxt (TextKey.enter false) =
      { stTxt with
        persistent := stTxt.persistent ++
          [MainOp.textFill stTxt.textInputValue (1 : ℝ) (2 : ℝ)
            (max (cfgText.lineWidth * 3) 14) "sans-serif" "top" cfgText.color],
        textInputValue := "", textInputPosition := none } ∧
    handleTextBlur cfgText stTxt =
      { stTxt with
        persistent := stTxt.persistent ++
          [MainOp.textFill stTxt.textInputValue (1 : ℝ) (2 : ℝ)
            (max (cfgText.lineWidth * 3) 14) "sans-serif" "top" cfgText.color],
        textInputValue := "", textInputPosition := none } ∧
    handleTextInputKeyDown cfgText stWs (TextKey.enter false) = stWs ∧
    handleTextBlur cfgText stWs = stWs :=
  text_confirm_commit cfgText stTxt stWs (1, 2) rfl rfl (by decide) (by decide)

/-- C3 counterexample: pressing Enter (without shift) on a region whose
content is the single space `" "` leaves the region open — the text-edit
state does not return to Idle, contrary to the claim. -/
theorem text_confirm_whitespace_keeps_region_open :
    (handleTextInputKeyDown cfgText stWs (TextKey.enter false)).textInputPosition
        = some ((1 : ℝ), (2 : ℝ)) ∧
    (handleTextInputKeyDown cfgText stWs (TextKey.enter false)).textInputPosition ≠ none := by
  have h : applyTextToCanvas cfgText stWs = stWs :=
    applyText_noop cfgText stWs (by decide)
  have h2 : handleTextInputKeyDown cfgText stWs (TextKey.enter false)
      = applyTextToCanvas cfgText stWs := rfl
  rw [h2, h]
  exact ⟨rfl, by simp [stWs]⟩

/-! ## C4: Text-tool pointer-down with a pending region -/

/-- C4: with the Text tool active and a region already open, pointer-down
first runs the text commit on the pending content — painting it when its
trimmed form is non-empty, committing nothing when it is whitespace-only —
and then opens a new region anchored at the clicked point. -/
theorem text_tool_pending_commit (cfg : Config) (s t : CanvasState) (p qs qt : ℝ × ℝ)
    (hm : cfg.drawMode = Tool.text)
    (hc : s.ctx = true) (hpv : s.previewCtx = true)
    (hpos : s.textInputPosition = some qs) (hv : jsTrim s.textInputValue ≠ "")
    (htc : t.ctx = true) (htpv : t.previewCtx = true)
    (htpos : t.textInputPosition = some qt) (htv : jsTrim t.textInputValue = "") :
    startDrawing cfg s p =
      { s with
        persistent := s.persistent ++
          [MainOp.textFill s.textInputValue qs.1 qs.2
            (max (cfg.lineWidth * 3) 14) "sans-serif" "top" cfg.color],
        textInputValue := "", textInputPosition := some p } ∧
    startDrawing cfg t p = { t with textInputPosition := some p } := by
  constructor
  · have h1 := applyText_commit cfg s qs hpos hc hv
    simp [startDrawing, hm, hc, hpv, hpos, h1]
  · have h2 := applyText_noop cfg t htv
    simp [startDrawing, hm, htc, htpv, htpos, h2]

theorem text_tool_pending_commit_witness :
    startDrawing cfgText stTxt (5, 6) =
      { stTxt with
        persistent := stTxt.persistent ++
          [MainOp.textFill stTxt.textInputValue (1 : ℝ) (2 : ℝ)
            (max (cfgText.lineWidth * 3) 14) "sans-serif" "top" cfgText.color],
        textInputValue := "", textInputPosition := some ((5 : ℝ), (6 : ℝ)) } ∧
    startDrawing cfgText stWs (5, 6) =
      { stWs with textInputPosition := some ((5 : ℝ), (6 : ℝ)) } :=
  text_tool_pending_commit cfgText stTxt stWs (5, 6) (1, 2) (1, 2)
    rfl rfl rfl rfl (by decide) rfl rfl rfl (by decide)

end Draw

namespace Draw

/-! ## C5: paste placement and scale-to-fit -/

/-- C5 counterexample: for a 100×100 canvas and a 160×1600 image, the image
is wider than `width - 20 = 80`, but the final blit width is `8`, not `80`:
the later height-constrained scale shrinks the width below `width - 20`. -/
theorem paste_fit_width_counterexample :
    (pasteGeometry 100 100 160 1600).2.1 ≠ 100 - 20 ∧
    (pasteGeometry 100 100 160 1600).2 = (8, 80) := by
  constructor <;> norm_num [pasteGeometry]

/-- C5 (amended): the blit position is `(max 0 ((w-iw)/2), max 0 ((h-ih)/2))`
and the two successive uniform scales preserve the aspect ratio; an image
wider than `w - 20` ends with width exactly `w - 20` provided the
width-scaled height already fits within `h - 20` (otherwise the height scale
shrinks the width further); an image already within both margins is not
scaled at all. -/
theorem paste_fit_geometry (wa ha iwa iha wb hb iwb ihb wc hc iwc ihc : ℚ)
    (hiwb : 0 < iwb) (hwide : iwb > wb - 20)
    (hfits : ihb * ((wb - 20) / iwb) ≤ hb - 20)
    (hsw : iwc ≤ wc - 20) (hsh : ihc ≤ hc - 20) :
    (pasteGeometry wa ha iwa iha).1 = (max 0 ((wa - iwa) / 2), max 0 ((ha - iha) / 2)) ∧
    (pasteGeometry wa ha iwa iha).2.1 * iha = (pasteGeometry wa ha iwa iha).2.2 * iwa ∧
    (pasteGeometry wb hb iwb ihb).2.1 = wb - 20 ∧
    (pasteGeometry wb hb iwb ihb).2.2 = ihb * ((wb - 20) / iwb) ∧
    (pasteGeometry wc hc iwc ihc).2 = (iwc, ihc) := by
  refine ⟨rfl, ?_, ?_, ?_, ?_⟩
  · unfold pasteGeometry
    dsimp only
    split_ifs <;> ring
  · unfold pasteGeometry
    dsimp only
    rw [if_pos hwide, if_neg (not_lt.mpr hfits)]
    rw [mul_comm, div_mul_cancel₀ _ hiwb.ne']
  · unfold pasteGeometry
    dsimp only
    rw [if_pos hwide, if_neg (not_lt.mpr hfits)]
  · unfold pasteGeometry
    dsimp only
    rw [if_neg (not_lt.mpr hsw), if_neg (not_lt.mpr hsh)]

theorem paste_fit_geometry_witness :
    (pasteGeometry 100 100 160 1600).1
      = (max 0 ((100 - 160) / 2), max 0 ((100 - 1600) / 2)) ∧
    (pasteGeometry 100 100 160 1600).2.1 * 1600
      = (pasteGeometry 100 100 160 1600).2.2 * 160 ∧
    (pasteGeometry 100 100 160 60).2.1 = 100 - 20 ∧
    (pasteGeometry 100 100 160 60).2.2 = 60 * ((100 - 20) / 160) ∧
    (pasteGeometry 100 100 50 50).2 = (50, 50) :=
  paste_fit_geometry 100 100 160 1600 100 100 160 60 100 100 50 50
    (by norm_num) (by norm_num) (by norm_num) (by norm_num) (by norm_num)

/-! ## C6: rectangle gestures are drag-direction independent -/

/-- The axis-aligned box outlined by the 2D `rect(x, y, w, h)` path command
(corners `(x, y)` and `(x + w, y + h)`, in either order). -/
def rectBox (x y w h : ℝ) : (ℝ × ℝ) × (ℝ × ℝ) :=
  ((min x (x + w), min y (y + h)), (max x (x + w), max y (y + h)))

def cfgRoughRect : Config := ⟨800, 600, "#000000", 5, Tool.rectangle, 1, true⟩

/-- C6: a rectangle gesture records width `q.x - p.x` and height `q.y - p.y`
(possibly negative) in both the precise and the rough branch, and the box
outlined for the gesture `p → q` equals the box outlined for the swapped
gesture `q → p`. -/
theorem rect_drag_direction_independent (cfg cfgR : Config) (p q : ℝ × ℝ)
    (hm : cfg.drawMode = Tool.rectangle) (hr : cfg.enableRough = false)
    (hmR : cfgR.drawMode = Tool.rectangle) (hrR : cfgR.enableRough = true) :
    shapePreviewOps cfg p q
      = [ShapeOp.rectStroke p.1 p.2 (q.1 - p.1) (q.2 - p.2) cfg.color cfg.lineWidth] ∧
    shapePreviewOps cfgR p q
      = [ShapeOp.roughRect p.1 p.2 (q.1 - p.1) (q.2 - p.2)
          cfgR.color cfgR.lineWidth cfgR.roughness] ∧
    rectBox p.1 p.2 (q.1 - p.1) (q.2 - p.2) = rectBox q.1 q.2 (p.1 - q.1) (p.2 - q.2) := by
  refine ⟨by simp [shapePreviewOps, hm, hr], by simp [shapePreviewOps, hmR, hrR], ?_⟩
  have e1 : p.1 + (q.1 - p.1) = q.1 := by ring
  have e2 : p.2 + (q.2 - p.2) = q.2 := by ring
  have e3 : q.1 + (p.1 - q.1) = p.1 := by ring
  have e4 : q.2 + (p.2 - q.2) = p.2 := by ring
  simp [rectBox, e1, e2, e3, e4, min_comm, max_comm]

theorem rect_drag_direction_independent_witness :
    shapePreviewOps cfgRect (50, 50) (10, 10)
      = [ShapeOp.rectStroke 50 50 ((10 : ℝ) - 50) ((10 : ℝ) - 50)
          cfgRect.color cfgRect.lineWidth] ∧
    shapePreviewOps cfgRoughRect (50, 50) (10, 10)
      = [ShapeOp.roughRect 50 50 ((10 : ℝ) - 50) ((10 : ℝ) - 50)
          cfgRoughRect.color cfgRoughRect.lineWidth cfgRoughRect.roughness] ∧
    rectBox 50 50 ((10 : ℝ) - 50) ((10 : ℝ) - 50)
      = rectBox 10 10 ((50 : ℝ) - 10) ((50 : ℝ) - 10) :=
  rect_drag_direction_independent cfgRect cfgRoughRect (50, 50) (10, 10)
    rfl rfl rfl rfl

/-! ## C10: the newer component refines the older one on the shared tools -/

/-- C10: with rough rendering disabled, a pointer-move of the newer Canvas
component performs exactly the drawing operations of the older one — same
full-preview clear, same path commands and stroke at the same coordinates
for rectangle, circle and line, and the identical direct pen stroke — so the
two components are observably equivalent on the shared tool set. -/
theorem old_new_draw_equiv (cfg : Config) (s : CanvasState) (p : ℝ × ℝ)
    (hr : cfg.enableRough = false)
    (hm : cfg.drawMode = Tool.pen ∨ cfg.drawMode = Tool.rectangle ∨
      cfg.drawMode = Tool.circle ∨ cfg.drawMode = Tool.line) :
    oldDraw cfg s p = draw cfg s p := by
  unfold oldDraw draw
  cases hs : s.startPos with
  | none => rfl
  | some a =>
    rcases hm with h | h | h | h <;>
      simp [h, oldShapePreviewOps, shapePreviewOps, hr]

theorem old_new_draw_equiv_witness :
    oldDraw cfgRect st0 (1, 2) = draw cfgRect st0 (1, 2) :=
  old_new_draw_equiv cfgRect st0 (1, 2) rfl (Or.inr (Or.inl rfl))

end Draw

namespace Draw

/-! ## C2: arrow geometry -/

/-- World position of the first back corner (`[-hl, -hl/2]`) of the rough
arrowhead path, after `rotate(angle)` then `translate(tipx, tipy)`. -/
noncomputable def roughArrowCornerA (tx ty angle hl : ℝ) : ℝ × ℝ :=
  (tx + Real.cos angle * (-hl) - Real.sin angle * (-(hl / 2)),
   ty + Real.sin angle * (-hl) + Real.cos angle * (-(hl / 2)))

/-- World position of the second back corner (`[-hl, hl/2]`) of the rough
arrowhead path, after `rotate(angle)` then `translate(tipx, tipy)`. -/
noncomputable def roughArrowCornerB (tx ty angle hl : ℝ) : ℝ × ℝ :=
  (tx + Real.cos angle * (-hl) - Real.sin angle * (hl / 2),
   ty + Real.sin angle * (-hl) + Real.cos angle * (hl / 2))

theorem dist_tip_back (t1 t2 hl φ : ℝ) (hhl : 0 ≤ hl) :
    Real.sqrt ((t1 - (t1 - hl * Real.cos φ)) ^ 2 + (t2 - (t2 - hl * Real.sin φ)) ^ 2)
      = hl := by
  have h1 : (t1 - (t1 - hl * Real.cos φ)) ^ 2 + (t2 - (t2 - hl * Real.sin φ)) ^ 2
      = hl ^ 2 := by
    calc (t1 - (t1 - hl * Real.cos φ)) ^ 2 + (t2 - (t2 - hl * Real.sin φ)) ^ 2
        = hl ^ 2 * (Real.cos φ ^ 2 + Real.sin φ ^ 2) := by ring
      _ = hl ^ 2 := by rw [Real.cos_sq_add_sin_sq, mul_one]
  rw [h1, Real.sqrt_sq hhl]

theorem dist_tip_roughCornerA (tx ty φ hl : ℝ) (hhl : 0 ≤ hl) :
    Real.sqrt ((tx - (roughArrowCornerA tx ty φ hl).1) ^ 2 +
        (ty - (roughArrowCornerA tx ty φ hl).2) ^ 2)
      = hl * (Real.sqrt 5 / 2) := by
  have h5 : Real.sqrt 5 ^ 2 = 5 := Real.sq_sqrt (by norm_num)
  have key : (tx - (roughArrowCornerA tx ty φ hl).1) ^ 2 +
      (ty - (roughArrowCornerA tx ty φ hl).2) ^ 2 = (hl * (Real.sqrt 5 / 2)) ^ 2 := by
    have h2 : (hl * (Real.sqrt 5 / 2)) ^ 2 = 5 / 4 * hl ^ 2 := by
      rw [mul_pow, div_pow, h5]
      ring
    calc (tx - (roughArrowCornerA tx ty φ hl).1) ^ 2 +
        (ty - (roughArrowCornerA tx ty φ hl).2) ^ 2
        = 5 / 4 * hl ^ 2 * (Real.cos φ ^ 2 + Real.sin φ ^ 2) := by
          simp only [roughArrowCornerA]
          ring
      _ = 5 / 4 * hl ^ 2 := by rw [Real.cos_sq_add_sin_sq, mul_one]
      _ = (hl * (Real.sqrt 5 / 2)) ^ 2 := h2.symm
  rw [key, Real.sqrt_sq (by positivity)]

def cfgArrow : Config := ⟨800, 600, "#000000", 5, Tool.arrow, 1, false⟩

def cfgRoughArrow : Config := ⟨800, 600, "#000000", 1, Tool.arrow, 1, true⟩

/-- C2 counterexample: with sketchy rendering enabled, stroke width 1,
anchor `(0, 0)` and current point `(100, 0)`, the preview receives no op for
the segment — only the rough arrowhead — and the arrowhead's back corner
lies at squared distance `125/4` from the tip, not `25 = min(5·1, 20)²`, so
the head is not the claimed `min(5w, 20)`-long, 30°-half-angle triangle. -/
theorem arrow_sketchy_counterexample :
    shapePreviewOps cfgRoughArrow (0, 0) (100, 0) =
      [ShapeOp.roughArrowHead 100 0 (atan2 0 100) 5 "#000000" 1 1] ∧
    ((100 : ℝ) - (roughArrowCornerA 100 0 (atan2 0 100) 5).1) ^ 2 +
        ((0 : ℝ) - (roughArrowCornerA 100 0 (atan2 0 100) 5).2) ^ 2
      ≠ (min ((1 : ℝ) * 5) 20) ^ 2 := by
  have hθ : atan2 0 100 = 0 := by
    unfold atan2
    rw [if_pos (by norm_num : (0 : ℝ) < 100)]
    norm_num [Real.arctan_zero]
  constructor
  · norm_num [shapePreviewOps, cfgRoughArrow, hθ]
  · rw [hθ]
    simp only [roughArrowCornerA, Real.cos_zero, Real.sin_zero]
    norm_num

/-- C2 (amended): with sketchy rendering disabled, the arrow tool strokes the
segment anchor→current and fills a triangular head whose tip is the current
point and whose back points lie at distance `min(5·strokeWidth, 20)` from
the tip at angles `θ ∓ π/6` off the line direction `θ`; with sketchy
rendering enabled, only the hand-drawn arrowhead is painted (the generated
rough shaft line is never drawn): a closed path with tip at the current
point whose back corners sit `hl` behind the tip along the line direction
and `hl/2` to either side, i.e. at distance `hl·√5/2` from the tip with
half-angle `arctan(1/2)` rather than 30°. -/
theorem arrow_render_geometry (cfg cfgR : Config) (a c : ℝ × ℝ)
    (hm : cfg.drawMode = Tool.arrow) (hr : cfg.enableRough = false)
    (hw : 0 ≤ cfg.lineWidth)
    (hmR : cfgR.drawMode = Tool.arrow) (hrR : cfgR.enableRough = true)
    (hwR : 0 ≤ cfgR.lineWidth) :
    shapePreviewOps cfg a c =
      [ShapeOp.lineStroke a.1 a.2 c.1 c.2 cfg.color cfg.lineWidth,
       ShapeOp.arrowHeadFill c.1 c.2
         (c.1 - min (cfg.lineWidth * 5) 20 *
            Real.cos (atan2 (c.2 - a.2) (c.1 - a.1) - Real.pi / 6))
         (c.2 - min (cfg.lineWidth * 5) 20 *
            Real.sin (atan2 (c.2 - a.2) (c.1 - a.1) - Real.pi / 6))
         (c.1 - min (cfg.lineWidth * 5) 20 *
            Real.cos (atan2 (c.2 - a.2) (c.1 - a.1) + Real.pi / 6))
         (c.2 - min (cfg.lineWidth * 5) 20 *
            Real.sin (atan2 (c.2 - a.2) (c.1 - a.1) + Real.pi / 6))
         cfg.color] ∧
    Real.sqrt ((c.1 - (c.1 - min (cfg.lineWidth * 5) 20 *
          Real.cos (atan2 (c.2 - a.2) (c.1 - a.1) - Real.pi / 6))) ^ 2 +
        (c.2 - (c.2 - min (cfg.lineWidth * 5) 20 *
          Real.sin (atan2 (c.2 - a.2) (c.1 - a.1) - Real.pi / 6))) ^ 2)
      = min (cfg.lineWidth * 5) 20 ∧
    Real.sqrt ((c.1 - (c.1 - min (cfg.lineWidth * 5) 20 *
          Real.cos (atan2 (c.2 - a.2) (c.1 - a.1) + Real.pi / 6))) ^ 2 +
        (c.2 - (c.2 - min (cfg.lineWidth * 5) 20 *
          Real.sin (atan2 (c.2 - a.2) (c.1 - a.1) + Real.pi / 6))) ^ 2)
      = min (cfg.lineWidth * 5) 20 ∧
    shapePreviewOps cfgR a c =
      [ShapeOp.roughArrowHead c.1 c.2 (atan2 (c.2 - a.2) (c.1 - a.1))
        (min (cfgR.lineWidth * 5) 20) cfgR.color cfgR.lineWidth cfgR.roughness] ∧
    Real.sqrt ((c.1 - (roughArrowCornerA c.1 c.2 (atan2 (c.2 - a.2) (c.1 - a.1))
          (min (cfgR.lineWidth * 5) 20)).1) ^ 2 +
        (c.2 - (roughArrowCornerA c.1 c.2 (atan2 (c.2 - a.2) (c.1 - a.1))
          (min (cfgR.lineWidth * 5) 20)).2) ^ 2)
      = min (cfgR.lineWidth * 5) 20 * (Real.sqrt 5 / 2) := by
  have hhl : 0 ≤ min (cfg.lineWidth * 5) 20 :=
    le_min (by positivity) (by norm_num)
  have hhlR : 0 ≤ min (cfgR.lineWidth * 5) 20 :=
    le_min (by positivity) (by norm_num)
  refine ⟨?_, dist_tip_back c.1 c.2 _ _ hhl, dist_tip_back c.1 c.2 _ _ hhl, ?_,
    dist_tip_roughCornerA c.1 c.2 _ _ hhlR⟩
  · simp [shapePreviewOps, drawArrow, hm, hr]
  · simp [shapePreviewOps, hmR, hrR]

theorem arrow_render_geometry_witness :
    shapePreviewOps cfgArrow (0, 0) (100, 0) =
      [ShapeOp.lineStroke (0, 0).1 (0, 0).2 (100, 0).1 (100, 0).2
         cfgArrow.color cfgArrow.lineWidth,
       ShapeOp.arrowHeadFill (100, 0).1 (100, 0).2
         ((100, 0).1 - min (cfgArrow.lineWidth * 5) 20 *
            Real.cos (atan2 ((100, 0).2 - (0, 0).2) ((100, 0).1 - (0, 0).1) - Real.pi / 6))
         ((100, 0).2 - min (cfgArrow.lineWidth * 5) 20 *
            Real.sin (atan2 ((100, 0).2 - (0, 0).2) ((100, 0).1 - (0, 0).1) - Real.pi / 6))
         ((100, 0).1 - min (cfgArrow.lineWidth * 5) 20 *
            Real.cos (atan2 ((100, 0).2 - (0, 0).2) ((100, 0).1 - (0, 0).1) + Real.pi / 6))
         ((100, 0).2 - min (cfgArrow.lineWidth * 5) 20 *
            Real.sin (atan2 ((100, 0).2 - (0, 0).2) ((100, 0).1 - (0, 0).1) + Real.pi / 6))
         cfgArrow.color] ∧
    Real.sqrt (((100, 0).1 - ((100, 0).1 - min (cfgArrow.lineWidth * 5) 20 *
          Real.cos (atan2 ((100, 0).2 - (0, 0).2) ((100, 0).1 - (0, 0).1) - Real.pi / 6))) ^ 2 +
        ((100, 0).2 - ((100, 0).2 - min (cfgArrow.lineWidth * 5) 20 *
          Real.sin (atan2 ((100, 0).2 - (0, 0).2) ((100, 0).1 - (0, 0).1) - Real.pi / 6))) ^ 2)
      = min (cfgArrow.lineWidth * 5) 20 ∧
    Real.sqrt (((100, 0).1 - ((100, 0).1 - min (cfgArrow.lineWidth * 5) 20 *
          Real.cos (atan2 ((100, 0).2 - (0, 0).2) ((100, 0).1 - (0, 0).1) + Real.pi / 6))) ^ 2 +
        ((100, 0).2 - ((100, 0).2 - min (cfgArrow.lineWidth * 5) 20 *
          Real.sin (atan2 ((100, 0).2 - (0, 0).2) ((100, 0).1 - (0, 0).1) + Real.pi / 6))) ^ 2)
      = min (cfgArrow.lineWidth * 5) 20 ∧
    shapePreviewOps cfgRoughArrow (0, 0) (100, 0) =
      [ShapeOp.roughArrowHead (100, 0).1 (100, 0).2
        (atan2 ((100, 0).2 - (0, 0).2) ((100, 0).1 - (0, 0).1))
        (min (cfgRoughArrow.lineWidth * 5) 20) cfgRoughArrow.color
        cfgRoughArrow.lineWidth cfgRoughArrow.roughness] ∧
    Real.sqrt (((100, 0).1 - (roughArrowCornerA (100, 0).1 (100, 0).2
          (atan2 ((100, 0).2 - (0, 0).2) ((100, 0).1 - (0, 0).1))
          (min (cfgRoughArrow.lineWidth * 5) 20)).1) ^ 2 +
        ((100, 0).2 - (roughArrowCornerA (100, 0).1 (100, 0).2
          (atan2 ((100, 0).2 - (0, 0).2) ((100, 0).1 - (0, 0).1))
          (min (cfgRoughArrow.lineWidth * 5) 20)).2) ^ 2)
      = min (cfgRoughArrow.lineWidth * 5) 20 * (Real.sqrt 5 / 2) :=
  arrow_render_geometry cfgArrow cfgRoughArrow (0, 0) (100, 0)
    rfl rfl (by norm_num [cfgArrow]) rfl rfl (by norm_num [cfgRoughArrow])

end Draw
